import Mathlib

/-!
# XSLTjs — verification of spec claims against the source

Shallow embedding of the XSLT engine of this repository
(`XsltContext.js`, `XPathFunctions.js`, `XSLT.js`, `XDomHelper.js`).
Pure pieces of the JavaScript are translated into executable Lean
definitions; the external collaborators the spec lists as out of scope
(the XPath compiler/evaluator, the XML parser/serializer, the fetcher)
enter as explicit function parameters.  JavaScript strings are modelled
as `String`/`List Char`, JS numbers as `ℚ` where the code only performs
exact decimal arithmetic, fallible code as `Except`/`Option`.
-/

namespace XSLTjs

/-- A DOM node, as far as the claims need it: elements carry an optional
namespace URI, a local name, attributes (name/value pairs) and ordered
children; text nodes carry their character data. -/
inductive XNode where
  | element (ns : Option String) (name : String) (attrs : List (String × String))
      (children : List XNode)
  | text (s : String)

/-- `node.textContent`: text of a text node, concatenation of the
children's text for an element (xmldom semantics used by the engine). -/
def textContent : XNode → String
  | .text s => s
  | .element _ _ _ cs => textContentList cs
where
  /-- Text content of a node list, in order. -/
  textContentList : List XNode → String
  | [] => ""
  | c :: cs => textContent c ++ textContentList cs

/-- `XDomHelper.createTextNode` runs `text.replace(/ +/g, ' ')` before
creating the node: every run of ASCII spaces collapses to one space.
A run is rewritten at its last space, which yields the same string as
replacing the whole run. -/
def collapseSpacesL : List Char → List Char
  | [] => []
  | [c] => [c]
  | c1 :: c2 :: rest =>
      if c1 = ' ' ∧ c2 = ' ' then collapseSpacesL (c2 :: rest)
      else c1 :: collapseSpacesL (c2 :: rest)

/-- String form of `collapseSpacesL`. -/
def collapseSpaces (s : String) : String :=
  (collapseSpacesL s.toList).asString

/-- `$$(doc).createTextNode(text)` from `XDomHelper.js`: the created text
node holds the space-collapsed text. -/
def createTextNode (s : String) : XNode :=
  .text (collapseSpaces s)

/-- `XDomHelper.copyDeep` restricted to element/text sources: the shallow
`copy` recreates an element (attributes whose name starts with `xmlns`
are skipped when copied) or routes text through `createTextNode`; the
deep copy then recurses over attributes and children. -/
def copyDeep : XNode → XNode
  | .text s => createTextNode s
  | .element ns name attrs cs =>
      .element ns name (attrs.filter (fun a => ¬ a.1.startsWith "xmlns"))
        (copyDeepList cs)
where
  /-- Deep copy of a child list, in order. -/
  copyDeepList : List XNode → List XNode
  | [] => []
  | c :: cs => copyDeep c :: copyDeepList cs

/-- `XsltContext.xsltCopyOf` (the body of the `if (select)` branch),
parametrised by the node list `contextNodes` that `xsltSelect` returned
for the `select` expression.  The source deep-copies each node only when
*more than one* node was selected; a single selected node is turned into
a text node holding its `textContent`, and an empty selection appends
nothing.  Returns the children appended to the output node. -/
def xsltCopyOf (contextNodes : List XNode) (output : List XNode) : List XNode :=
  if contextNodes.length > 1 then
    output ++ copyDeep.copyDeepList contextNodes
  else
    match contextNodes with
    | [n] => output ++ [createTextNode (textContent n)]
    | _ => output

/-- The S1 input document element `<a><b x="1"/></a>`. -/
def s1Input : XNode :=
  .element none "a" [] [.element none "b" [("x", "1")] []]

-- Whitespace processing (`XsltContext.processWhitespace`).

/-- The character class `[ \r\n\t\f]` used throughout
`processWhitespace`. -/
def wsA (c : Char) : Bool :=
  c = ' ' ∨ c = '\r' ∨ c = '\n' ∨ c = '\t' ∨ c = '\x0c'

/-- The character class `[ \r\n\t]` of the middle alternative of the
strip regex (it omits form feed). -/
def wsB (c : Char) : Bool :=
  c = ' ' ∨ c = '\r' ∨ c = '\n' ∨ c = '\t'

/-- The lookahead class `[\s\r\n\t\f]` of the strip regex, on ASCII
(`\s` adds vertical tab; the engine's inputs are ASCII here). -/
def jsLookWs (c : Char) : Bool :=
  c = ' ' ∨ c = '\r' ∨ c = '\n' ∨ c = '\t' ∨ c = '\x0c' ∨ c = '\x0b'

/-- Scan for `value.replace(/(^[ \r\n\t\f]+|[ \r\n\t](?=[\s\r\n\t\f]+)|[ \r\n\t\f]+$)/g, '')`
after the leading run has been handled: a `[ \r\n\t]` character followed
by further whitespace is dropped, a whitespace run extending to the end
of the string is dropped, anything else is kept. -/
def jsStripAux : List Char → List Char
  | [] => []
  | c :: cs =>
      if wsB c && (match cs with | d :: _ => jsLookWs d | [] => false) then
        jsStripAux cs
      else if wsA c && cs.all wsA then []
      else c :: jsStripAux cs

/-- The `strip` branch of `processWhitespace`: the global regex first
consumes the leading whitespace run (the `^` alternative), then the scan
above handles interior and trailing whitespace. -/
def jsWsStrip (s : String) : String :=
  (jsStripAux (s.toList.dropWhile wsA)).asString

/-- The `normalize` branch: `value.replace(/[ \r\n\t\f]+/g, ' ')`; each
whitespace run is rewritten at its last character. -/
def jsWsNormalizeL : List Char → List Char
  | [] => []
  | [c] => if wsA c then [' '] else [c]
  | c1 :: c2 :: rest =>
      if wsA c1 && wsA c2 then jsWsNormalizeL (c2 :: rest)
      else if wsA c1 then ' ' :: jsWsNormalizeL (c2 :: rest)
      else c1 :: jsWsNormalizeL (c2 :: rest)

/-- String form of `jsWsNormalizeL`. -/
def jsWsNormalize (s : String) : String :=
  (jsWsNormalizeL s.toList).asString

/-- The three whitespace policies of `processWhitespace`. -/
inductive WsPolicy where
  | strip
  | preserve
  | normalize
deriving DecidableEq, Repr

/-- The `cfg` whitespace lists: a JS object keyed by canonical
`{ns}local` names (or wildcards) models as a membership list. -/
structure WsLists where
  stripSpaceList : List String
  preserveSpaceList : List String

/-- Policy selection of `XsltContext.processWhitespace`: with no context
element the policy is `strip`; otherwise the strip list is consulted for
the exact name *or* the namespace wildcard, then the preserve list for
the exact name or namespace wildcard, then the global `*` in the strip
list, then in the preserve list, with fallback `normalize`.  The context
element is given as its (optional) namespace URI and local name. -/
def processWhitespacePolicy (cfg : WsLists) :
    Option (Option String × String) → WsPolicy
  | none => .strip
  | some (nsURI, localName) =>
      let fullName := (match nsURI with
        | some u => "\x7b" ++ u ++ "\x7d"
        | none => "") ++ localName
      let allNamespace := nsURI.map (fun u => "\x7b" ++ u ++ "\x7d*")
      if cfg.stripSpaceList.contains fullName ||
          (match allNamespace with
           | some a => cfg.stripSpaceList.contains a
           | none => false) then .strip
      else if cfg.preserveSpaceList.contains fullName ||
          (match allNamespace with
           | some a => cfg.preserveSpaceList.contains a
           | none => false) then .preserve
      else if cfg.stripSpaceList.contains "*" then .strip
      else if cfg.preserveSpaceList.contains "*" then .preserve
      else .normalize

/-- `XsltContext.processWhitespace`: select the policy, then rewrite the
string value accordingly. -/
def processWhitespace (cfg : WsLists) (value : String)
    (contextElement : Option (Option String × String)) : String :=
  match processWhitespacePolicy cfg contextElement with
  | .strip => jsWsStrip value
  | .preserve => value
  | .normalize => jsWsNormalize value

/-- The policy lookup as the claim words it: the exact name is consulted
across both lists first, then the namespace wildcard across both lists,
then the global `*` across both lists (strip before preserve at each
level), with the same defaults.  Written from the claim, to compare with
the source-derived `processWhitespacePolicy`. -/
def claimedWhitespacePolicy (cfg : WsLists) :
    Option (Option String × String) → WsPolicy
  | none => .strip
  | some (nsURI, localName) =>
      let fullName := (match nsURI with
        | some u => "\x7b" ++ u ++ "\x7d"
        | none => "") ++ localName
      let allNamespace := nsURI.map (fun u => "\x7b" ++ u ++ "\x7d*")
      if cfg.stripSpaceList.contains fullName then .strip
      else if cfg.preserveSpaceList.contains fullName then .preserve
      else if (match allNamespace with
          | some a => cfg.stripSpaceList.contains a
          | none => false) then .strip
      else if (match allNamespace with
          | some a => cfg.preserveSpaceList.contains a
          | none => false) then .preserve
      else if cfg.stripSpaceList.contains "*" then .strip
      else if cfg.preserveSpaceList.contains "*" then .preserve
      else .normalize

-- Sorting (`XsltContext.sortNodes`) and `xsltApplyTemplates`.

/-- One `xsl:sort` child as read by `sortNodes`: its `select`, its
`data-type` (default `text`) and its `order` (default `ascending`). -/
structure SortSpec where
  select : String
  dataType : String
  order : String
deriving DecidableEq, Repr

/-- `XsltContext.sortNodes`.  With no `xsl:sort` children it returns at
once, leaving the node list alone.  With sort children but an empty node
list, the per-node loop never runs and the list is replaced by the empty
sorted sequence.  With sort children *and* context nodes the source
crashes: inside `this.nodeList.forEach` the outer record
`const sortItem = { contextNode, key: [] }` is shadowed by the parameter
of `sort.forEach((sortItem) => …)`, which ranges over the
`{ select, type, order }` specs; those have no `key` field, so
`sortItem.key.push(…)` dereferences `undefined` and throws a TypeError
on the first candidate, whatever the sort keys evaluate to. -/
def sortNodes (sortSpecs : List SortSpec) (nodeList : List XNode) :
    Except String (List XNode) :=
  if sortSpecs.isEmpty then .ok nodeList
  else if nodeList.isEmpty then .ok []
  else .error "TypeError: sortItem.key is undefined"

/-- Observable events of one `xsltApplyTemplates` invocation, over an
abstract template type `τ`. -/
inductive ATEvent (τ : Type) where
  | withParamPrePass
  | tried (t : τ) (n : XNode)
  | fired (t : τ) (n : XNode)
  | textCopied (n : XNode)
  | sortNodesCall

/-- The inner template loop of `xsltApplyTemplates`: try each mode
template in document order against the candidate; `process` returning
true sets `processed` and breaks, so templates after the first firing
one are never invoked.  `fires` abstracts the `xsltTemplate`
match/mode test (the external XPath evaluation).  Returns the firing
template, if any, and the invocation events in order. -/
def tryTemplates {τ : Type} (fires : τ → XNode → Bool) (n : XNode) :
    List τ → Option τ × List (ATEvent τ)
  | [] => (none, [])
  | t :: ts =>
      if fires t n then (some t, [.fired t n])
      else
        let r := tryTemplates fires n ts
        (r.1, .tried t n :: r.2)

/-- The candidate loop of `xsltApplyTemplates`: for each candidate run
the template loop; when a template fires, its body writes `emit t n` to
the output (abstracted); when none fires and the candidate is a text
node, `$$(outputNode).copy(contextNode)` appends the node's text via
`createTextNode` (which collapses runs of spaces).  Returns the output
children and the events, in order. -/
def applyCandidates {τ : Type} (fires : τ → XNode → Bool)
    (emit : τ → XNode → List XNode) (templates : List τ) :
    List XNode → List XNode × List (ATEvent τ)
  | [] => ([], [])
  | n :: ns =>
      let r := tryTemplates fires n templates
      let here : List XNode × List (ATEvent τ) :=
        match r.1, n with
        | some t, _ => (emit t n, r.2)
        | none, .text s => ([createTextNode s], r.2 ++ [.textCopied n])
        | none, _ => ([], r.2)
      let rest := applyCandidates fires emit templates ns
      (here.1 ++ rest.1, here.2 ++ rest.2)

/-- `XsltContext.xsltApplyTemplates`, parametrised by the mode template
list, the firing test, the emitted bodies, the `xsl:sort` children and
the selected candidates.  Faithful control flow of the source: an empty
mode template list or an empty candidate list returns early; the
`with-param` pre-pass runs, then the candidate loop, and only *after*
the loop does the source call `sortContext.sortNodes(transformNode)`,
whose outcome decides whether the invocation returns or raises. -/
def xsltApplyTemplates {τ : Type} (templates : List τ)
    (fires : τ → XNode → Bool) (emit : τ → XNode → List XNode)
    (sortSpecs : List SortSpec) (candidates : List XNode) :
    List (ATEvent τ) × Except String (List XNode) :=
  if templates.isEmpty then ([], .ok [])
  else if candidates.isEmpty then ([], .ok [])
  else
    let r := applyCandidates fires emit templates candidates
    match sortNodes sortSpecs candidates with
    | .ok _ => (ATEvent.withParamPrePass :: r.2 ++ [ATEvent.sortNodesCall], .ok r.1)
    | .error e => (ATEvent.withParamPrePass :: r.2 ++ [ATEvent.sortNodesCall], .error e)

/-- Number of `fired` events in an event list. -/
def countFired {τ : Type} : List (ATEvent τ) → Nat
  | [] => 0
  | .withParamPrePass :: evs => countFired evs
  | .tried _ _ :: evs => countFired evs
  | .fired _ _ :: evs => countFired evs + 1
  | .textCopied _ :: evs => countFired evs
  | .sortNodesCall :: evs => countFired evs


/-- The policy lookup as the amended claim words it: the strip-space
list is consulted for the exact name or the namespace wildcard first
(so a wildcard in the strip list beats an exact entry in the preserve
list), then the preserve-space list likewise, then the global `*` in
the strip list, then in the preserve list; `strip` with no context
element, `normalize` when nothing applies. -/
def amendedWhitespacePolicy (cfg : WsLists) :
    Option (Option String × String) → WsPolicy
  | none => .strip
  | some (nsURI, localName) =>
      let fullName := (match nsURI with
        | some u => "\x7b" ++ u ++ "\x7d"
        | none => "") ++ localName
      let nsWildcardHit := fun (l : List String) =>
        match nsURI with
        | some u => l.contains ("\x7b" ++ u ++ "\x7d*")
        | none => false
      if cfg.stripSpaceList.contains fullName ||
          nsWildcardHit cfg.stripSpaceList then .strip
      else if cfg.preserveSpaceList.contains fullName ||
          nsWildcardHit cfg.preserveSpaceList then .preserve
      else if cfg.stripSpaceList.contains "*" then .strip
      else if cfg.preserveSpaceList.contains "*" then .preserve
      else .normalize

-- Theorems for claims C1, C2, C3, C8.

/-- C1: for the S1 identity scenario (`xsl:copy-of select="*"` applied
at the root of `<a><b x="1"/></a>`), `xsltSelect` returns exactly the
element `a`, so `xsltCopyOf` takes its singleton branch and appends a
text node holding the element's text content (the empty string) instead
of a deep copy: the selected node set of size one is *not* deep-copied,
and the serialized output cannot be `<a><b x="1"/></a>`. -/
theorem C1_copy_of_singleton_becomes_text :
    xsltCopyOf [s1Input] [] = [XNode.text ""] ∧
    copyDeep s1Input = s1Input ∧
    xsltCopyOf [s1Input] [] ≠ [copyDeep s1Input] := by
  refine ⟨rfl, rfl, ?_⟩
  intro h
  have h1 : XNode.text "" = s1Input := by injection h
  exact XNode.noConfusion h1

/-- C2 counterexample: a text-node candidate `"a  b"` against a
never-firing mode template list is copied through `createTextNode`,
which collapses the double space, so the output text is `"a b"`, not
the verbatim `"a  b"` the claim requires. -/
theorem C2_counterexample_text_not_verbatim :
    (applyCandidates (fun (_ : Unit) _ => false) (fun _ _ => []) [()]
        [XNode.text "a  b"]).1 = [XNode.text "a b"] ∧
    XNode.text "a b" ≠ XNode.text "a  b" := by
  refine ⟨rfl, ?_⟩
  intro h
  have h1 : ("a b" : String) = "a  b" := by injection h
  exact absurd h1 (by decide)

/-- C2 (amended): for every candidate node, at most one mode template
fires (the loop breaks at the first `process` call returning true), and
when none fires and the candidate is a text node, its text is copied to
the output with runs of ASCII spaces collapsed to a single space
(otherwise unchanged). -/
theorem C2_at_most_one_fires_and_unmatched_text_copied (τ : Type) :
    (∀ (fires : τ → XNode → Bool) (n : XNode) (templates : List τ),
      countFired (tryTemplates fires n templates).2 ≤ 1) ∧
    (∀ (fires : τ → XNode → Bool) (emit : τ → XNode → List XNode)
        (templates : List τ) (s : String),
      (tryTemplates fires (XNode.text s) templates).1 = none →
      (applyCandidates fires emit templates [XNode.text s]).1
        = [XNode.text (collapseSpaces s)]) := by
  constructor
  · intro fires n templates
    induction templates with
    | nil => simp [tryTemplates, countFired]
    | cons t ts ih =>
        by_cases h : fires t n
        · simp [tryTemplates, h, countFired]
        · simpa [tryTemplates, h, countFired] using ih
  · intro fires emit templates s h
    simp only [applyCandidates, h]
    simp [applyCandidates, createTextNode]

/-- Witness for the amended C2 theorem at a concrete input. -/
theorem C2_at_most_one_fires_and_unmatched_text_copied_witness :
    (tryTemplates (fun (_ : Unit) _ => false) (XNode.text "x  y") [()]).1 = none ∧
    (applyCandidates (fun (_ : Unit) _ => false) (fun _ _ => []) [()]
        [XNode.text "x  y"]).1 = [XNode.text (collapseSpaces "x  y")] :=
  ⟨rfl, (C2_at_most_one_fires_and_unmatched_text_copied Unit).2
      (fun (_ : Unit) _ => false) (fun _ _ => []) [()] "x  y" rfl⟩

/-- C3: in `xsltApplyTemplates` the source calls
`sortContext.sortNodes(transformNode)` only *after* the per-candidate
template loop.  With one always-firing template, candidates
`10, 2, 30` and an `xsl:sort select="." data-type="number"
order="descending"` child, the invocation fires the template against
the candidates in document order (`10, 2, 30`, not the sorted
`30, 10, 2`), and only then reaches `sortNodes` — which, the sort list
being non-empty, throws the shadowing TypeError, so the run fails
instead of producing sorted output. -/
theorem C3_sort_runs_after_candidate_loop :
    xsltApplyTemplates ["t"] (fun _ _ => true) (fun _ n => [n])
        [⟨".", "number", "descending"⟩]
        [XNode.text "10", XNode.text "2", XNode.text "30"]
      = ([ATEvent.withParamPrePass,
          ATEvent.fired "t" (XNode.text "10"),
          ATEvent.fired "t" (XNode.text "2"),
          ATEvent.fired "t" (XNode.text "30"),
          ATEvent.sortNodesCall],
         Except.error "TypeError: sortItem.key is undefined") := rfl

/-- C8 counterexample: with `strip-space` registered for the namespace
wildcard and `preserve-space` for the exact name, the source picks
`strip` while the claimed precedence (exact beats wildcard across both
lists) picks `preserve`. -/
theorem C8_counterexample_strip_wildcard_beats_exact :
    processWhitespacePolicy ⟨["\x7bu\x7d*"], ["\x7bu\x7de"]⟩
        (some (some "u", "e")) = .strip ∧
    claimedWhitespacePolicy ⟨["\x7bu\x7d*"], ["\x7bu\x7de"]⟩
        (some (some "u", "e")) = .preserve ∧
    WsPolicy.strip ≠ WsPolicy.preserve := by decide

/-- C8 (amended): the policy lookup consults the strip list's exact and
namespace-wildcard entries first, then the preserve list's, then the
global `*` in the strip list, then in the preserve list; default
`strip` without a context element and `normalize` when nothing
applies. -/
theorem C8_whitespace_policy_amended (cfg : WsLists)
    (ctx : Option (Option String × String)) :
    processWhitespacePolicy cfg ctx = amendedWhitespacePolicy cfg ctx := by
  rcases ctx with _ | ⟨ns, l⟩
  · rfl
  · rcases ns with _ | u <;> rfl

-- Variable binding (`XsltContext.processVariable`, `xsltParam`).

/-- A JavaScript value as it flows through variable binding: a string,
a number, a boolean, a document fragment (carrying its text content) or
an array of nodes (carrying their text contents). -/
inductive JSValue where
  | str (s : String)
  | num (q : ℚ)
  | bool (b : Bool)
  | fragment (text : String)
  | nodes (texts : List String)
deriving DecidableEq, Repr

/-- JavaScript truthiness of a `JSValue` (objects are always truthy). -/
def jsTruthy : JSValue → Bool
  | .str s => s != ""
  | .num q => !(q == 0)
  | .bool b => b
  | .fragment _ => true
  | .nodes _ => true

/-- `value instanceof Array || value.nodeType !== undefined`: true for
node arrays and fragments, false for primitives. -/
def isArrayOrNode : JSValue → Bool
  | .nodes _ => true
  | .fragment _ => true
  | _ => false

/-- `$$(value).textContent` for fragments and node arrays. -/
def jsTextContent : JSValue → String
  | .fragment t => t
  | .nodes ts => String.join ts
  | .str s => s
  | .num _ => ""
  | .bool _ => ""

/-- The regex `^\d+(\.\d*)?$` of `setVariable`. -/
def jsNumericLiteral (s : String) : Bool :=
  let l := s.toList
  let ds := l.takeWhile Char.isDigit
  let rest := l.dropWhile Char.isDigit
  ds != [] && (match rest with
    | [] => true
    | c :: f => c == '.' && f.all Char.isDigit)

/-- Numeric value of a string accepted by `jsNumericLiteral`. -/
def parseDecimalQ (s : String) : ℚ :=
  let l := s.toList
  let ip := l.takeWhile Char.isDigit
  let rest := l.dropWhile Char.isDigit
  let fp := match rest with
    | _ :: f => f
    | [] => []
  let natOf := fun (ds : List Char) =>
    ds.foldl (fun a c => a * 10 + (c.toNat - 48)) 0
  ((natOf ip : ℕ) : ℚ) + ((natOf fp : ℕ) : ℚ) / ((10 : ℚ) ^ fp.length)

/-- `XsltContext.setVariable` string coercion: literal `true`/`false`
become booleans, a `^\d+(\.\d*)?$` literal becomes a number, any other
string stays a string; non-strings are stored as-is. -/
def setVariableCoerce : JSValue → JSValue
  | .str s =>
      if s = "true" then .bool true
      else if s = "false" then .bool false
      else if jsNumericLiteral s then .num (parseDecimalQ s)
      else .str s
  | v => v

/-- Local variable scope as an insertion-ordered association list;
assignment replaces an existing key. -/
def assocSet : List (String × JSValue) → String → JSValue → List (String × JSValue)
  | [], n, v => [(n, v)]
  | (k, w) :: rest, n, v =>
      if k = n then (n, v) :: rest else (k, w) :: assocSet rest n v

/-- `this.variables[name]`, as an option. -/
def assocGet : List (String × JSValue) → String → Option JSValue
  | [], _ => none
  | (k, w) :: rest, n => if k = n then some w else assocGet rest n

/-- `!this.getVariable(name, { localOnly: true })` inverted: the local
lookup returns the binding or `null`, and the guard tests JS
truthiness, so a bound-but-falsy value counts like an absent one. -/
def localBindingTruthy (vars : List (String × JSValue)) (name : String) : Bool :=
  match assocGet vars name with
  | some v => jsTruthy v
  | none => false

/-- `value.replace(/\s+/g, ' ')` applied to string values before
binding (ASCII whitespace; each run is rewritten at its last
character). -/
def jsCollapseWsRuns (s : String) : String :=
  (go s.toList).asString
where
  /-- Scan for the global whitespace-run replacement. -/
  go : List Char → List Char
  | [] => []
  | [c] => if jsLookWs c then [' '] else [c]
  | c1 :: c2 :: rest =>
      if jsLookWs c1 && jsLookWs c2 then go (c2 :: rest)
      else if jsLookWs c1 then ' ' :: go (c2 :: rest)
      else c1 :: go (c2 :: rest)

/-- The external inputs of one `processVariable` evaluation: the
`options.value` override, whether the element has child nodes and the
text its body evaluates to, and the `select` attribute together with
the value `xsltSelect` returns for it. -/
structure VarEvalEnv where
  optionsValue : Option JSValue
  hasChildNodes : Bool
  childFragmentText : String
  selectAttr : Option String
  selectResult : JSValue

/-- `XsltContext.processVariable`.  The value is `options.value` when
truthy, else the body fragment when the element has children, else the
`xsltSelect` result when `select` is present, else the existing local
binding, else the empty string.  The binding is (re)placed when
`override` holds *or* the local binding is not truthy; `asText`
flattens fragments and node arrays to their text, whitespace runs in
string values collapse, and `setVariable` coerces string literals.
`xsltParam` calls this with `override = false`, `asText = true`. -/
def processVariable (env : VarEvalEnv) (override asText : Bool) (name : String)
    (vars : List (String × JSValue)) : List (String × JSValue) :=
  let value0 : Option JSValue :=
    match env.optionsValue with
    | some v => if jsTruthy v then some v else none
    | none => none
  let value : JSValue :=
    match value0 with
    | some v => v
    | none =>
        if env.hasChildNodes then .fragment env.childFragmentText
        else match env.selectAttr with
          | some _ => env.selectResult
          | none =>
              match assocGet vars name with
              | some v => v
              | none => .str ""
  if override || !(localBindingTruthy vars name) then
    let value1 := if asText && isArrayOrNode value then
        JSValue.str (jsTextContent value) else value
    let value2 := match value1 with
      | .str s => JSValue.str (jsCollapseWsRuns s)
      | v => v
    assocSet vars name (setVariableCoerce value2)
  else vars

/-- C9 counterexample: a local binding `n = false` is falsy, so
evaluating `xsl:param name="n" select="…"` *replaces* it with the
computed default (`"yes"` here), although the claim says a binding of
`false` is never replaced. -/
theorem C9_counterexample_falsy_binding_overwritten :
    processVariable ⟨none, false, "", some "@v", JSValue.str "yes"⟩
        false true "n" [("n", JSValue.bool false)]
      = [("n", JSValue.str "yes")] ∧
    [("n", JSValue.str "yes")] ≠ [("n", JSValue.bool false)] := by
  refine ⟨rfl, by decide⟩

/-- C9 (amended): evaluating an `xsl:param` (`override = false`,
`asText = true`) leaves the local scope unchanged whenever the name is
already bound to a JS-truthy value; a falsy binding (empty string, 0,
false) is treated like an absent one and is overwritten with the
computed default. -/
theorem C9_param_keeps_truthy_binding (env : VarEvalEnv) (name : String)
    (vars : List (String × JSValue)) (v : JSValue)
    (hget : assocGet vars name = some v) (htruthy : jsTruthy v = true) :
    processVariable env false true name vars = vars := by
  unfold processVariable
  have hl : localBindingTruthy vars name = true := by
    simp [localBindingTruthy, hget, htruthy]
  simp [hl]

/-- Witness for the amended C9 theorem at a concrete input. -/
theorem C9_param_keeps_truthy_binding_witness :
    processVariable ⟨none, false, "", none, JSValue.str ""⟩ false true "n"
        [("n", JSValue.num 7)] = [("n", JSValue.num 7)] :=
  C9_param_keeps_truthy_binding ⟨none, false, "", none, JSValue.str ""⟩ "n"
    [("n", JSValue.num 7)] (JSValue.num 7) rfl rfl

-- Attribute value templates (`XsltContext.resolveExpression`).

/-- The while-loop test `/\{[^}]+\}/.test(value)`: somewhere an opening
brace is followed by at least one non-`}` character and then a closing
brace. -/
def avtTest : List Char → Bool
  | [] => false
  | c :: rest =>
      if c = '\x7b' then
        let run := rest.takeWhile (fun d => d != '\x7d')
        if run != [] && (rest.dropWhile (fun d => d != '\x7d')).head? = some '\x7d'
        then true
        else avtTest rest
      else avtTest rest

/-- `value.match(/^(.*?)\{([^{}]+)\}(.*)$/)`: the lazy prefix makes the
engine take the first position from which `\{[^{}]+\}` matches, i.e.
the first opening brace followed by a non-empty brace-free run and a
closing brace.  Returns `(leftSide, xPath, rightSide)`. -/
def avtMatch (left : List Char) : List Char → Option (List Char × List Char × List Char)
  | [] => none
  | c :: rest =>
      if c = '\x7b' then
        let run := rest.takeWhile (fun d => d != '\x7b' && d != '\x7d')
        let rest2 := rest.dropWhile (fun d => d != '\x7b' && d != '\x7d')
        if run != [] && rest2.head? = some '\x7d' then
          some (left.reverse, run, rest2.tail)
        else avtMatch (c :: left) rest
      else avtMatch (c :: left) rest

/-- One iteration body of `resolveExpression`: since
`(/:\/\(/).testXPath` is an undefined property (not a call), only
`/^[.$]/.test(xPath)` decides whether the expression is evaluated; an
evaluated expression is selected as an XPath String (modelled by `ev`,
`none` for a thrown exception) and passed through `processWhitespace`
with no context element (the `strip` policy); every other expression —
and every failed evaluation — is fenced in the `[[[ … ]]]` sentinel. -/
def resolveExpressionStep (ev : String → Option String) (l e r : List Char) :
    List Char :=
  if (match e with
      | c :: _ => c == '.' || c == '$'
      | [] => false) then
    match ev e.asString with
    | some v => l ++ (jsWsStrip v).toList ++ r
    | none => l ++ ("[[[".toList ++ e ++ "]]]".toList) ++ r
  else l ++ ("[[[".toList ++ e ++ "]]]".toList) ++ r

/-- The `while` loop of `resolveExpression`, with explicit fuel (the
source loop has no intrinsic bound).  `none` models a run that does not
finish: fuel exhaustion, or the corner where the test regex matches but
the match regex returns `null` and `match[1]` throws. -/
def resolveExpressionLoop (ev : String → Option String) :
    Nat → List Char → Option (List Char)
  | 0, _ => none
  | fuel + 1, value =>
      if avtTest value then
        match avtMatch [] value with
        | some (l, e, r) => resolveExpressionLoop ev fuel (resolveExpressionStep ev l e r)
        | none => none
      else some value

/-- Replace every (non-overlapping, leftmost) occurrence of `pat` by
`rep`, scanning left to right; `skip` counts characters of a matched
occurrence still to be skipped.  (Used with non-empty patterns, like
the JS `String.replace` with a global literal regex.) -/
def replaceSeqAux (pat rep : List Char) : List Char → Nat → List Char
  | [], _ => []
  | c :: rest, 0 =>
      if pat.isPrefixOf (c :: rest) then
        rep ++ replaceSeqAux pat rep rest (pat.length - 1)
      else c :: replaceSeqAux pat rep rest 0
  | _ :: rest, skip + 1 => replaceSeqAux pat rep rest skip

/-- String form of `replaceSeqAux`. -/
def jsReplaceAll (s pat rep : String) : String :=
  (replaceSeqAux pat.toList rep.toList s.toList 0).asString

/-- `XsltContext.resolveExpression`: run the rewrite loop, then restore
the sentinels to literal braces
(`.replace(/\[\[\[/g, '{').replace(/]]]/g, '}')`). -/
def resolveExpression (ev : String → Option String) (fuel : Nat)
    (value : String) : Option String :=
  (resolveExpressionLoop ev fuel value.toList).map
    (fun l => jsReplaceAll (jsReplaceAll l.asString "[[[" "\x7b") "]]]" "\x7d")

/-- C4 counterexample: in the S4 scenario the expression `@x` does not
start with `.` or `$`, so `resolveExpression` never evaluates it — even
with an evaluator that would return `7` — and the attribute value stays
`pre-{@x}-post` instead of the claimed `pre-7-post`. -/
theorem C4_counterexample_at_sign_not_evaluated :
    resolveExpression (fun s => if s = "@x" then some "7" else none) 4
        "pre-\x7b@x\x7d-post"
      = some "pre-\x7b@x\x7d-post" ∧
    some "pre-\x7b@x\x7d-post" ≠ some "pre-7-post" := by
  refine ⟨rfl, by decide⟩

/-- C4 (amended): `resolveExpression` rewrites an outermost `{…}`
expression only when its XPath starts with `.` or `$`, evaluating it as
an XPath String (strip whitespace policy); any other expression — such
as the S4 `{@x}` — is restored as literal text, so
`pre-{.}-post` becomes `pre-7-post` when the context evaluates `.` to
`7`, while `pre-{@x}-post` is returned unchanged for every
evaluator. -/
theorem C4_only_dot_dollar_expressions_evaluated
    (ev : String → Option String) (h : ev "." = some "7") :
    resolveExpression ev 4 "pre-\x7b.\x7d-post" = some "pre-7-post" ∧
    resolveExpression ev 4 "pre-\x7b@x\x7d-post" = some "pre-\x7b@x\x7d-post" := by
  constructor
  · have hstep : resolveExpressionStep ev ("pre-".toList) (".".toList)
        ("-post".toList) = "pre-7-post".toList := by
      have he : ev ((".".toList).asString) = some "7" := h
      simp only [resolveExpressionStep, he]
      rfl
    have hloop : resolveExpressionLoop ev 4 ("pre-\x7b.\x7d-post").toList
        = resolveExpressionLoop ev 3 (resolveExpressionStep ev ("pre-".toList)
            (".".toList) ("-post".toList)) := rfl
    unfold resolveExpression
    rw [hloop, hstep]
    rfl
  · rfl

/-- Witness for the amended C4 theorem at a concrete evaluator. -/
theorem C4_only_dot_dollar_expressions_evaluated_witness :
    resolveExpression (fun s => if s = "." then some "7" else none) 4
        "pre-\x7b.\x7d-post" = some "pre-7-post" :=
  (C4_only_dot_dollar_expressions_evaluated
    (fun s => if s = "." then some "7" else none) rfl).1

-- Include / import (`XsltContext.xsltInclude`, also used by `xsltImport`).

/-- The XSLT namespace URI the engine reserves for `xsl`. -/
def xslNamespaceURI : String :=
  "http://www.w3.org/1999/XSL/Transform"

/-- Observable events of one `xsltInclude` run. -/
inductive IncEvent where
  | clearHref
  | fetchCall (url : String)
deriving DecidableEq, Repr

/-- An `xsl:include` / `xsl:import` element, reduced to what
`xsltInclude` reads: its `href` attribute and its local name. -/
structure IncNode where
  href : Option String
  localName : String

/-- The include element as it sits in the transform tree. -/
def incElem (inc : IncNode) : XNode :=
  .element (some xslNamespaceURI) inc.localName
    (match inc.href with
     | some u => [("href", u)]
     | none => []) []

/-- The include element after `removeAttribute('href')`. -/
def incElemCleared (inc : IncNode) : XNode :=
  .element (some xslNamespaceURI) inc.localName [] []

/-- `transformURL.replace(/[^\/]+$/, '')`: drop the trailing run of
non-slash characters (no change when the URL ends in `/`). -/
def dropLastSegment (t : String) : String :=
  ((t.toList.reverse.dropWhile (fun c => c != '/')).reverse).asString

/-- `url.replace(/^\.\//, '')`: drop one leading `./`. -/
def dropDotSlash (url : String) : String :=
  match url.toList with
  | '.' :: '/' :: rest => rest.asString
  | _ => url

/-- The relative-URL step of `xsltInclude`:
`if ((/^\./).test(url) && this.transformURL) url = transformURL.replace(/[^\/]+$/, '') + url.replace(/^\.\//, '')`
(`transformURL` must be JS-truthy, i.e. present and non-empty). -/
def resolveIncludeURL (url : String) (transformURL : Option String) : String :=
  match transformURL with
  | some t =>
      if url.toList.head? = some '.' && t != "" then
        dropLastSegment t ++ dropDotSlash url
      else url
  | none => url

/-- `XsltContext.xsltInclude`, parametrised by the external
fetch-and-parse (`Utils.fetch` + `DOMParser` + the deep copy of the
response root; `.error` is a thrown exception, `.ok none` a falsy
response, `.ok (some cs)` the copied child list).  `pre`/`post` are the
siblings around the include node in its parent.  Control flow of the
source: no `href` means return at once; otherwise the `href` attribute
is removed *before* the fetch, and the whole fetch-splice block sits in
`try { … } catch (exception) {}`, so a fetch or parse error leaves the
(href-cleared) node in place and the run continues.  On success the
fetched children are spliced before the node (`include`) or appended to
the parent (`import`) and the node is removed. -/
def xsltInclude (inc : IncNode) (transformURL : Option String)
    (fetch : String → Except String (Option (List XNode)))
    (pre post : List XNode) : List IncEvent × List XNode :=
  match inc.href with
  | none => ([], pre ++ [incElem inc] ++ post)
  | some href =>
      let url := resolveIncludeURL href transformURL
      match fetch url with
      | .error _ =>
          ([.clearHref, .fetchCall url], pre ++ [incElemCleared inc] ++ post)
      | .ok none =>
          ([.clearHref, .fetchCall url], pre ++ [incElemCleared inc] ++ post)
      | .ok (some children) =>
          if inc.localName = "include" then
            ([.clearHref, .fetchCall url], pre ++ children ++ post)
          else
            ([.clearHref, .fetchCall url], pre ++ post ++ children)

/-- C7: `xsltInclude` returns with the transform tree unchanged when the
element has no `href`; when `href` is present the `clearHref` step
precedes the fetch in the event order; and a fetch/parse exception is
swallowed — the run returns normally with the include node still in
place (only its `href` gone), so the transform proceeds without the
referent. -/
theorem C7_include_skips_clears_and_swallows (inc : IncNode)
    (turl : Option String)
    (fetch : String → Except String (Option (List XNode)))
    (pre post : List XNode) :
    (inc.href = none →
      xsltInclude inc turl fetch pre post = ([], pre ++ [incElem inc] ++ post)) ∧
    (∀ u, inc.href = some u →
      (xsltInclude inc turl fetch pre post).1
        = [IncEvent.clearHref, IncEvent.fetchCall (resolveIncludeURL u turl)]) ∧
    (∀ u e, inc.href = some u →
      fetch (resolveIncludeURL u turl) = .error e →
      (xsltInclude inc turl fetch pre post).2
        = pre ++ [incElemCleared inc] ++ post) := by
  refine ⟨?_, ?_, ?_⟩
  · intro h
    simp [xsltInclude, h]
  · intro u h
    simp only [xsltInclude, h]
    cases hf : fetch (resolveIncludeURL u turl) with
    | error e => simp
    | ok o =>
        cases o with
        | none => simp
        | some cs =>
            by_cases hl : inc.localName = "include" <;> simp [hl]
  · intro u e h hf
    simp [xsltInclude, h, hf]

/-- Witness for the C7 theorem: a failing fetch at a concrete include
node. -/
theorem C7_include_skips_clears_and_swallows_witness :
    (⟨some "./a.xsl", "include"⟩ : IncNode).href = some "./a.xsl" ∧
    (fun (_ : String) => (Except.error "FetchError" :
        Except String (Option (List XNode)))) (resolveIncludeURL "./a.xsl"
          (some "http://h/t.xsl")) = .error "FetchError" ∧
    (xsltInclude ⟨some "./a.xsl", "include"⟩ (some "http://h/t.xsl")
        (fun _ => .error "FetchError") [] []).2
      = [] ++ [incElemCleared ⟨some "./a.xsl", "include"⟩] ++ [] :=
  ⟨rfl, rfl,
    (C7_include_skips_clears_and_swallows ⟨some "./a.xsl", "include"⟩
        (some "http://h/t.xsl") (fun _ => .error "FetchError") [] []).2.2
      "./a.xsl" "FetchError" rfl rfl⟩

-- `xsltSelect` helper-element bookkeeping (claim C10).

/-- The `while (src.firstChild) { … removeChild … appendChild … }` move
loop of `xsltSelect`: children leave `src` front-first and are appended
to `dst`, preserving their order.  Returns the drained source and the
extended destination. -/
def moveChildren : List XNode → List XNode → List XNode × List XNode
  | [], dst => ([], dst)
  | m :: rest, dst => moveChildren rest (dst ++ [m])

/-- The `$variable` branch of `XsltContext.xsltSelect` for a node-valued
variable, tracking the input document (as the host node's child list)
and the variable's fragment children.  The source moves the variable's
children into a fresh `temp` element, appends `temp` to the host,
evaluates the rewritten XPath (read-only, abstracted by `ev`), and in
the `finally` block moves the children back into the variable and
removes `temp` from its parent (`temp` was appended last, so the
removal drops the final child). -/
def xsltSelectVarFrame {V : Type} (hostChildren varChildren : List XNode)
    (ev : List XNode → V) : V × List XNode × List XNode :=
  let moved := moveChildren varChildren []
  let host1 := hostChildren ++ [XNode.element none "temp" [] moved.2]
  let value := ev host1
  let movedBack := moveChildren moved.2 []
  (value, host1.dropLast, movedBack.2)

/-- The `document($…)` branch of `XsltContext.xsltSelect`: the fetched
document's children are moved into `temp`, `temp` is appended to the
host and evaluated against, and the `finally` block removes `temp`
(here `variableNode` is null, so no move-back runs and the fetched
children are discarded with `temp`). -/
def xsltSelectDocFrame {V : Type} (hostChildren srcDocChildren : List XNode)
    (ev : List XNode → V) : V × List XNode :=
  let moved := moveChildren srcDocChildren []
  let host1 := hostChildren ++ [XNode.element none "temp" [] moved.2]
  let value := ev host1
  (value, host1.dropLast)

/-- Draining a child list into an accumulator keeps order: the source
empties and the destination gains exactly the source suffix. -/
theorem moveChildren_eq (src dst : List XNode) :
    moveChildren src dst = ([], dst ++ src) := by
  induction src generalizing dst with
  | nil => simp [moveChildren]
  | cons m rest ih => simp [moveChildren, ih]

/-- C10: for both temp-element branches of `xsltSelect` — a select
starting with `document($…)` and one starting with a node-valued
`$variable` — the appended `temp` element is removed before the call
returns, and the children moved out of the variable's fragment are
moved back in their original order: the host's child list and the
variable's children are unchanged by the call. -/
theorem C10_select_restores_document_and_variable {V : Type}
    (hostChildren varChildren srcDocChildren : List XNode)
    (ev evDoc : List XNode → V) :
    (xsltSelectVarFrame hostChildren varChildren ev).2.1 = hostChildren ∧
    (xsltSelectVarFrame hostChildren varChildren ev).2.2 = varChildren ∧
    (xsltSelectDocFrame hostChildren srcDocChildren evDoc).2 = hostChildren := by
  refine ⟨?_, ?_, ?_⟩
  · simp [xsltSelectVarFrame, moveChildren_eq]
  · simp [xsltSelectVarFrame, moveChildren_eq]
  · simp [xsltSelectDocFrame, moveChildren_eq]

-- The dispatcher (`XsltContext.process`) and the driver (`XSLT.js`).

/-- The `xslt*` instance methods of `XsltContext` — everything the
handler lookup `this[functionName]` can find for a name of the shape
`xslt…`. -/
def handlerNames : List String :=
  ["xsltMatch", "xsltTest", "xsltSelect", "xsltApplyTemplates",
   "xsltAttribute", "xsltCallTemplate", "xsltChoose", "xsltComment",
   "xsltCopy", "xsltCopyOf", "xsltDecimalFormat", "xsltElement",
   "xsltForEach", "xsltFunction", "xsltIf", "xsltInclude", "xsltImport",
   "xsltOutput", "xsltParam", "xsltPreserveSpace",
   "xsltProcessingInstruction", "xsltSort", "xsltStripSpace",
   "xsltStylesheet", "xsltTransform", "xsltTemplate", "xsltText",
   "xsltValueOf", "xsltVariable", "xsltWithParam"]

/-- The interior of the handler-name computation
`localName.replace` with the global regex matching a leading letter or
a hyphen-letter pair, after the first character: each `-letter` pair loses the hyphen and
uppercases the letter. -/
def camelAfter : List Char → List Char
  | [] => []
  | '-' :: c :: rest =>
      if c.isAlpha then c.toUpper :: camelAfter rest
      else '-' :: camelAfter (c :: rest)
  | c :: rest => c :: camelAfter rest

/-- `'xslt' + localName.replace(/^[a-z]|-[a-z]/gi, …)`: uppercase a
leading letter, then camel-case the hyphenated rest. -/
def camelHandlerName (localName : String) : String :=
  "xslt" ++ (match localName.toList with
    | c :: rest =>
        if c.isAlpha then (c.toUpper :: camelAfter rest).asString
        else (camelAfter (c :: rest)).asString
    | [] => "")

/-- What `XsltContext.process` decides to invoke. -/
inductive Dispatch where
  | passThroughCall
  | handlerCall (functionName : String)
deriving DecidableEq, Repr

/-- The dispatch of `XsltContext.process` (and, identically, of
`processRoot`): a node outside the XSLT namespace goes to
`passThrough`; inside it, the camel-cased `xslt…` method is looked up
on the context (`this[functionName]`), and a missing method throws
`new Error(`not implemented: ${localName}`)`.
(`new XPathNamespaceResolver(node).getNamespace('xsl')` is the constant
XSLT namespace URI.) -/
def process (nsURI : Option String) (localName : String) :
    Except String Dispatch :=
  if nsURI ≠ some xslNamespaceURI then .ok .passThroughCall
  else
    let functionName := camelHandlerName localName
    if functionName ∈ handlerNames then .ok (.handlerCall functionName)
    else .error ("not implemented: " ++ localName)

/-- The recursive walk `processRoot` / `process` / `processChildNodes`,
with the behaviour of the implemented handlers abstracted by
`handlerSem` (they receive the element's children).  No `catch` stands
between a handler and the driver, so an error short-circuits every
level (`Except` bind), exactly like the uncaught JS exception. -/
def processNode (handlerSem : String → List XNode → Except String Unit) :
    XNode → Except String Unit
  | .text _ => .ok ()
  | .element ns localName _ children =>
      match process ns localName with
      | .error e => .error e
      | .ok .passThroughCall => processSiblings handlerSem children
      | .ok (.handlerCall fn) => handlerSem fn children
where
  /-- `processChildNodes`: children in document order, stopping at the
  first uncaught error. -/
  processSiblings (handlerSem : String → List XNode → Except String Unit) :
      List XNode → Except String Unit
  | [] => .ok ()
  | c :: cs =>
      match processNode handlerSem c with
      | .error e => .error e
      | .ok _ => processSiblings handlerSem cs

/-- The promise of `XSLT.process`: a thrown run rejects with the
exception; a completed run resolves with the serialized text — but only
when that text is truthy (`if (xml) { … resolve(xml) }`), an empty
serialization leaves the promise pending (`none`). -/
def xsltProcessOutcome (run : Except String Unit) (serializedXml : String) :
    Option (Except String String) :=
  match run with
  | .error e => some (.error e)
  | .ok _ => if serializedXml != "" then some (.ok serializedXml) else none

/-- The xslt4node-style `XSLT.transform` callback arguments: a rejection
delivers `exception.toString()` (for `new Error(m)` the string
`"Error: " ++ m`) first and `null` second; a resolution delivers
`(null, xml)`. -/
def transformCallbackArgs : Except String String → Option String × Option String
  | .error e => (some ("Error: " ++ e), none)
  | .ok xml => (none, some xml)

/-- C6: a transform element in the XSLT namespace whose local name does
not camel-case to an existing `xslt…` method makes `process` throw
`not implemented: <localName>`; the error passes `processChildNodes`
untouched (later siblings are not processed), the promise of
`XSLT.process` rejects with it, and the xslt4node callback receives the
error string first and `null` — no output document — second. -/
theorem C6_unknown_xslt_element_is_fatal
    (handlerSem : String → List XNode → Except String Unit)
    (ns : Option String) (localName : String)
    (attrs : List (String × String)) (children cs : List XNode)
    (xml : String)
    (hns : ns = some xslNamespaceURI)
    (hunk : camelHandlerName localName ∉ handlerNames) :
    processNode handlerSem (.element ns localName attrs children)
      = .error ("not implemented: " ++ localName) ∧
    processNode.processSiblings handlerSem
        (XNode.element ns localName attrs children :: cs)
      = .error ("not implemented: " ++ localName) ∧
    xsltProcessOutcome
        (processNode handlerSem (.element ns localName attrs children)) xml
      = some (.error ("not implemented: " ++ localName)) ∧
    transformCallbackArgs (.error ("not implemented: " ++ localName))
      = (some ("Error: not implemented: " ++ localName), none) := by
  have hp : process ns localName = .error ("not implemented: " ++ localName) := by
    simp [process, hns, hunk]
  have h1 : processNode handlerSem (.element ns localName attrs children)
      = .error ("not implemented: " ++ localName) := by
    simp [processNode, hp]
  refine ⟨h1, ?_, ?_, ?_⟩
  · simp [processNode.processSiblings, h1]
  · simp [xsltProcessOutcome, h1]
  · simp only [transformCallbackArgs]
    rw [← String.append_assoc]
    rfl

/-- Witness for the C6 theorem at the concrete unknown element
`xsl:frobnicate`. -/
theorem C6_unknown_xslt_element_is_fatal_witness :
    camelHandlerName "frobnicate" ∉ handlerNames ∧
    processNode (fun _ _ => .ok ())
        (.element (some xslNamespaceURI) "frobnicate" [] [])
      = .error ("not implemented: " ++ "frobnicate") :=
  ⟨by decide, (C6_unknown_xslt_element_is_fatal (fun _ _ => .ok ())
      (some xslNamespaceURI) "frobnicate" [] [] [] "" rfl (by decide)).1⟩

-- `XPathFunctions.formatNumber` (claim C5).

/-- The fields of a registered decimal format that `formatNumber`
reads; the `_default` registration supplies `.` `,` `;` `-`
`Infinity` `NaN`. -/
structure DecimalFormat where
  decimalSeparator : Char
  groupingSeparator : Char
  patternSeparator : Char
  minusSign : Char
  infinity : String
  nan : String

/-- `XPathFunctions.decimalFormats._default`. -/
def defaultDecimalFormat : DecimalFormat :=
  ⟨'.', ',', ';', '-', "Infinity", "NaN"⟩

/-- Prefix before the first occurrence of `c` (the whole list when `c`
is absent): `replace(RegExp('\\' + c + '.*$'), '')`. -/
def beforeFirst (c : Char) (l : List Char) : List Char :=
  l.takeWhile (fun d => d != c)

/-- Suffix after the first occurrence of `c` (unchanged when absent):
`replace(RegExp('^.*?\\' + c), '')` with a lazy prefix. -/
def afterFirst (c : Char) (l : List Char) : List Char :=
  if l.contains c then (l.dropWhile (fun d => d != c)).tail else l

/-- Suffix after the last occurrence of `c` (unchanged when absent):
`replace(RegExp('^.*' + c), '')` with a greedy prefix. -/
def afterLast (c : Char) (l : List Char) : List Char :=
  if l.contains c then (l.reverse.takeWhile (fun d => d != c)).reverse else l

/-- `RegExp(c).test(s)` for a separator character used *unescaped* (the
source builds these regexes without quoting): a literal character tests
containment, while `.` matches any character, so the test succeeds on
any non-empty string. -/
def regexTestChar (c : Char) (l : List Char) : Bool :=
  if c = '.' then l != [] else l.contains c

/-- `Math.floor` for a non-negative rational (every floor the source
takes is of a non-negative value): truncating integer division of the
numerator by the denominator. -/
def jsFloorNonneg (q : ℚ) : ℤ :=
  q.num / (q.den : ℤ)

/-- The fractional part of a non-negative rational,
`q - Math.floor(q)`, computed on the numerator so that only core
rational operations are involved. -/
def fracPart (q : ℚ) : ℚ :=
  mkRat (q.num % (q.den : ℤ)) q.den

/-- `Math.abs`. -/
def jsAbs (q : ℚ) : ℚ :=
  if q.num < 0 then -q else q

/-- The fractional digits of `mantissa.toString()` for a rational with
a finite decimal expansion (the engine relies on the JS shortest
round-trip printing, which agrees on such inputs); `fuel` bounds the
expansion. -/
def fracDigitsAux : Nat → ℚ → List Char
  | 0, _ => []
  | fuel + 1, q =>
      if q.num ≤ 0 then []
      else
        let q10 := mkRat (q.num * 10) q.den
        let d := jsFloorNonneg q10
        Char.ofNat (48 + (d.toNat % 10)) :: fracDigitsAux fuel (fracPart q10)

/-- The mantissa fill loop of `formatNumber`: walk the fractional side
of the sub-pattern left to right, consuming source digits at `0`
(falling back to the literal `0`) and at `#` (falling back to nothing),
and copying any other character. -/
def fillMantissa : List Char → List Char → List Char
  | [], _ => []
  | d :: rest, src =>
      if d = '0' then
        match src with
        | s :: t => s :: fillMantissa rest t
        | [] => d :: fillMantissa rest []
      else if d = '#' then
        match src with
        | s :: t => s :: fillMantissa rest t
        | [] => fillMantissa rest []
      else d :: fillMantissa rest src

/-- The integer fill loop of `formatNumber`, walking the integer side of
the sub-pattern right to left.  `revSide` is the reversed remaining
pattern (so the untraversed prefix is `revRest.reverse`), `srcRev` the
reversed unconsumed source digits (head = next digit from the right,
`j ≥ 0` iff non-empty, `substr(0, j+1)` = `srcRev.reverse`), `acc` the
accumulated output.  `0` consumes a digit or pads with `0`; `#`
consumes a digit or nothing; the grouping separator is kept only while
source digits remain; the minus sign prepends the remaining digits and
breaks; anything else is copied.  After each non-breaking step, when no
`0`/`#` positions remain to the left and at least two source digits are
unconsumed, the remaining digits are prepended (the overflow rule). -/
def fillCharAux (gsep msign : Char) :
    List Char → List Char → List Char → List Char
  | [], _, acc => acc
  | d :: revRest, srcRev, acc =>
      if d = msign && d != '0' && d != '#' && d != gsep then
        d :: (srcRev.reverse ++ acc)
      else
        let step : List Char × List Char :=
          if d = '0' then
            match srcRev with
            | s :: t => (t, s :: acc)
            | [] => ([], d :: acc)
          else if d = '#' then
            match srcRev with
            | s :: t => (t, s :: acc)
            | [] => ([], acc)
          else if d = gsep then
            match srcRev with
            | _ :: _ => (srcRev, d :: acc)
            | [] => ([], acc)
          else (srcRev, d :: acc)
        if (revRest.isEmpty || !(revRest.any (fun c => c == '0' || c == '#')))
            && decide (1 < step.1.length) then
          fillCharAux gsep msign revRest [] (step.1.reverse ++ step.2)
        else fillCharAux gsep msign revRest step.1 step.2

/-- `XPathFunctions.formatNumber` on a finite number (the
`Infinity`/`NaN` early returns cannot fire for a rational input): split
the pattern at the pattern separator (appending a minus-signed copy
when there is none), choose the sub-pattern by sign, fill the
fractional side left-to-right and the integer side right-to-left, glue
with the decimal separator when the fractional side is non-empty, and
strip the remaining `#`. -/
def formatNumber (df : DecimalFormat) (q : ℚ) (format : String) : String :=
  let mantissa : ℚ := fracPart (jsAbs q)
  let characteristic : ℤ := jsFloorNonneg (jsAbs q)
  let fmt0 := format.toList
  let fmt1 := if regexTestChar df.patternSeparator fmt0 then fmt0
    else fmt0 ++ (df.patternSeparator :: df.minusSign :: fmt0)
  let fmt2 := if q.num < 0 then afterLast df.patternSeparator fmt1
    else beforeFirst df.patternSeparator fmt1
  let mantissaSide0 := if fmt2.contains df.decimalSeparator
    then afterFirst df.decimalSeparator fmt2 else []
  let mantissaSide :=
    if 0 < mantissa.num then
      if regexTestChar df.decimalSeparator fmt2 then
        fillMantissa mantissaSide0 (fracDigitsAux 64 mantissa)
      else []
    else mantissaSide0
  let characteristicSide0 := beforeFirst df.decimalSeparator fmt2
  let characteristicSide :=
    if 0 ≤ characteristic then
      fillCharAux df.groupingSeparator df.minusSign characteristicSide0.reverse
        (Nat.toDigits 10 characteristic.toNat).reverse []
    else characteristicSide0
  ((characteristicSide ++
      (if mantissaSide != [] then df.decimalSeparator :: mantissaSide else [])).filter
    (fun c => c != '#')).asString

/-- C5: with the default decimal format,
`format-number(-1234.5, '#,##0.00;(#,##0.00)')` picks the negative
sub-pattern, fills `1234` right-to-left keeping the grouping comma,
fills the fraction left-to-right with `0` forcing the trailing digit,
and returns `(1,234.50)`. -/
theorem C5_format_number_negative_grouped_pattern :
    formatNumber defaultDecimalFormat (mkRat (-2469) 2)
      "#,##0.00;(#,##0.00)" = "(1,234.50)" := by
  rfl

end XSLTjs
